import Mathlib

/-!
# Verification of the link-registry core (`src/core/link.go`)

This file shallowly embeds the link-establishment core of the repository:
the url-driven `links.call` dispatcher, the `links.stop` shutdown, the
`link.handler` handshake state machine and the link registry that it
mutates.  Pure parts (hex codec used for pinned keys and the allow-list,
option parsing, the branching structure of the handshake) are translated
directly from the Go source; the external boundaries that the source file
only calls into (metadata codec bytes, `util.FuncTimeout`, the raw
connection, the tunnel engine `HandleConn`) are represented by explicit
environment inputs recording each call's outcome, so the handler is a pure
function of its inputs and that environment.

The concurrent lifecycle of the registry (many handlers racing to
register/deregister under the mutex) is modelled as a small-step transition
system `Step` / `Reachable` whose atomic transitions are exactly the
critical sections of the Go code: the check-then-insert of lines 222-240
and the deferred delete-and-close of lines 232-237.
-/

set_option autoImplicit false

/-- `keyArray` models Go's `[ed25519.PublicKeySize]byte` (a 32-byte value);
we use a list of byte values, normalised by `padKey` at every point where
the Go code `copy`s into a fresh `[32]byte`. -/
abbrev keyArray := List Nat

/-- `copy(sigPubKey[:], sigPub)` into a zeroed `[32]byte`: keep the first
32 bytes and pad with zero bytes up to length 32. -/
def padKey (bs : List Nat) : keyArray :=
  bs.take 32 ++ List.replicate (32 - (bs.take 32).length) 0

/-- Value of a single hexadecimal digit, as in Go's `encoding/hex`
(`0-9`, `a-f`, `A-F`); `none` on any other character. -/
def hexDigitVal (c : Char) : Option Nat :=
  if '0' ≤ c ∧ c ≤ '9' then some (c.toNat - '0'.toNat)
  else if 'a' ≤ c ∧ c ≤ 'f' then some (c.toNat - 'a'.toNat + 10)
  else if 'A' ≤ c ∧ c ≤ 'F' then some (c.toNat - 'A'.toNat + 10)
  else none

/-- Go's `hex.DecodeString` (success case): decodes pairs of hex digits to
bytes, failing on an odd-length string or any non-hex character. -/
def decodeHexBytes : List Char → Option (List Nat)
  | [] => some []
  | [_] => none
  | c1 :: c2 :: rest => do
    let hi ← hexDigitVal c1
    let lo ← hexDigitVal c2
    let tail ← decodeHexBytes rest
    pure ((hi * 16 + lo) :: tail)

/-- Lowercase hex digit character for a value `< 16`. -/
def hexDigitChar (n : Nat) : Char :=
  if n < 10 then Char.ofNat (48 + n) else Char.ofNat (97 + (n - 10))

/-- Go's `hex.EncodeToString`: two lowercase hex digits per byte. -/
def hexEncode (bs : List Nat) : String :=
  String.mk (bs.flatMap (fun b => [hexDigitChar ((b / 16) % 16), hexDigitChar (b % 16)]))

/-- Go's `strconv.ParseUint(s, 10, 8)` with its error discarded, as in
`links.call`: a syntax error leaves the zero value, a range error leaves
the maximum `uint8` value. -/
def parseUint8 (s : String) : Nat :=
  if s.isEmpty then 0
  else
    match s.toNat? with
    | none => 0
    | some n => if n > 255 then 255 else n

/-- `linkInfo` from `link.go`: the registry key
`{key, linkType, local, remote}` (the Go field `local` is spelled
`localAddr` here because `local` is a Lean keyword). -/
structure linkInfo where
  key : keyArray
  linkType : String
  localAddr : String
  remote : String
deriving DecidableEq, Repr

/-- `linkOptions` from `link.go`: a `nil`-able pinned-key set (`none` is
Go's nil map; `some ks` is an allocated map with entry list `ks`) and the
locally configured metric. -/
structure linkOptions where
  pinnedEd25519Keys : Option (List keyArray)
  metric : Nat
deriving DecidableEq, Repr

/-- `tcpOptions` as populated by `links.call` (transport-only fields that
`link.go` merely forwards — proxy address/credentials and the TLS upgrade
flag — are carried verbatim). -/
structure tcpOptions where
  pinnedEd25519Keys : Option (List keyArray)
  metric : Nat
  socksProxyAddr : String
  socksProxyAuth : Option (String × String)
  upgradeTLS : Bool
deriving DecidableEq, Repr

/-- Modelled from the spec: the transport adapter hands the pinned-key set
and metric of the `tcpOptions` through unchanged as the `linkOptions` of
the resulting link. -/
def tcpOptions.toLinkOptions (t : tcpOptions) : linkOptions :=
  { pinnedEd25519Keys := t.pinnedEd25519Keys, metric := t.metric }

/-- The parts of a parsed `url.URL` that `links.call` reads: the scheme,
host, path, userinfo and the `ed25519`/`metric` query parameters. -/
structure urlModel where
  scheme : String
  host : String
  path : String
  user : Option (String × String)
  ed25519Params : List String
  metricParams : List String
deriving DecidableEq, Repr

/-- Lines 84-93 of `link.go`: if at least one `ed25519` query parameter is
present, allocate the pinned-key map and insert the `copy`-padded bytes of
every parameter that decodes as hex; parameters that fail to decode are
skipped silently. -/
def parsePinnedKeys (pubkeys : List String) : Option (List keyArray) :=
  if pubkeys = [] then none
  else some (pubkeys.filterMap (fun p => (decodeHexBytes p.toList).map padKey))

/-- Line 94-97 of `link.go`: the `metric` query parameter is parsed only
when it occurs exactly once. -/
def parseMetricParam (ms : List String) : Nat :=
  match ms with
  | [m] => parseUint8 m
  | _ => 0

/-- `strings.Split(strings.Trim(path, "/"), "/")[0]`, used to extract the
dial target of a `socks://` URI from its path. -/
def socksPathTarget (path : String) : String :=
  let trimmed := String.mk (((path.toList.dropWhile (· = '/')).reverse.dropWhile (· = '/')).reverse)
  (trimmed.splitOn "/").headD ""

/-- Observable effect of one `links.call` invocation: whether and with
what target/options `l.tcp.call` was invoked (the dial itself is
asynchronous and its success is never reported back), and the returned
error. -/
structure callEffect where
  dialTarget : Option String
  dialOpts : Option tcpOptions
  err : Option String
deriving DecidableEq, Repr

/-- `links.call` (lines 78-117 of `link.go`): build the `tcpOptions` from
the query parameters, then dispatch on the scheme; `tcp`, `socks` and
`tls` invoke `l.tcp.call` (whose outcome is not observed) and return nil,
every other scheme returns the `unknown call scheme` error without
dialling. -/
def links.call (u : urlModel) : callEffect :=
  let base : tcpOptions :=
    { pinnedEd25519Keys := parsePinnedKeys u.ed25519Params,
      metric := parseMetricParam u.metricParams,
      socksProxyAddr := "", socksProxyAuth := none, upgradeTLS := false }
  if u.scheme = "tcp" then
    { dialTarget := some u.host, dialOpts := some base, err := none }
  else if u.scheme = "socks" then
    let opts := { base with socksProxyAddr := u.host, socksProxyAuth := u.user }
    { dialTarget := some (socksPathTarget u.path), dialOpts := some opts, err := none }
  else if u.scheme = "tls" then
    { dialTarget := some u.host, dialOpts := some { base with upgradeTLS := true }, err := none }
  else
    { dialTarget := none, dialOpts := none, err := some ("unknown call scheme: " ++ u.scheme) }

/-- State of the `links` struct relevant to `stop`: whether the `stopped`
channel has already been closed. -/
structure linksState where
  stoppedClosed : Bool
deriving DecidableEq, Repr

/-- Outcome of one `links.stop` invocation: either a runtime fault
(closing an already-closed Go channel) or an orderly return. -/
inductive StopOutcome where
  | panicked (msg : String)
  | returned (err : Option String)
deriving DecidableEq, Repr

/-- `links.stop` (lines 137-143 of `link.go`): `close(l.stopped)` — which
faults if the channel is already closed — then `l.tcp.stop()`, whose error
(`tcpStopErr`) is propagated.  On the fault path `l.tcp.stop()` is never
reached. -/
def links.stop (st : linksState) (tcpStopErr : Option String) : StopOutcome × linksState :=
  if st.stoppedClosed then
    (StopOutcome.panicked "close of closed channel", st)
  else
    (StopOutcome.returned tcpStopErr, { stoppedClosed := true })

/-- Modelled from the spec: `version_metadata`, the fixed-layout handshake
record `{major version, minor version, identity key, metric}` (the file
defining it is not part of the provided sources). -/
structure version_metadata where
  ver : Nat
  minorVer : Nat
  key : List Nat
  metric : Nat
deriving DecidableEq, Repr

/-- Modelled from the spec: the fixed total size of the encoded metadata
frame (1 version byte + 1 minor-version byte + 32 key bytes + 1 metric
byte). -/
def metaLen : Nat := 35

/-- The fixed deadline (seconds) of the metadata send, line 155. -/
def metadataSendTimeout : Nat := 30

/-- The fixed deadline (seconds) of the metadata receive, line 167. -/
def metadataRecvTimeout : Nat := 30

/-- Association-list lookup with decidable key equality, modelling Go map
indexing (`l.links[info]`). -/
def alistLookup {α β : Type} [DecidableEq α] (k : α) : List (α × β) → Option β
  | [] => none
  | e :: rest => if e.1 = k then some e.2 else alistLookup k rest

/-- Association-list removal of the entry for a key, modelling Go's
`delete(m, k)` (removes the first — in a map, only — entry). -/
def alistErase {α β : Type} [DecidableEq α] (k : α) : List (α × β) → List (α × β)
  | [] => []
  | e :: rest => if e.1 = k then rest else e :: alistErase k rest

/-- The environment of one `link.handler` run: the outcome of every
boundary call the handler makes, in program order.  `sendOutcome = none`
means `util.FuncTimeout` reported expiry of the 30-second send deadline;
`some (n, werr)` is the `(n, err)` pair returned by `conn.Write`.
Likewise `recvOutcome` for the `io.ReadFull` under its own 30-second
deadline.  `decoded` is the result of `meta.decode` on the received bytes
(`none` = decode failure) and `checkOk` the result of `meta.check()`.
`allowedKeys` is `core.config.GetCurrent().AllowedPublicKeys`, `registry`
the links map at the moment the handler takes the mutex, and `tunnelErr`
the error returned by the tunnel engine `PacketConn.HandleConn`. -/
structure HandshakeEnv where
  sendOutcome : Option (Nat × Option String)
  recvOutcome : Option (Nat × Option String)
  decoded : Option version_metadata
  checkOk : Bool
  allowedKeys : List String
  registry : List (linkInfo × Nat)
  tunnelErr : Option String
deriving DecidableEq, Repr

/-- Everything observable about one complete `link.handler` run:
the returned `(chan, error)` pair (`retClosed = some id` stands for
returning link `id`'s `closed` channel), the registry after the run, the
number of `conn.Close()` invocations on this link's connection, whether
this attempt inserted a registry entry, how many times that entry was
deleted again, how many times `close(intf.closed)` fired, and the
`(key, metric)` pair handed to `HandleConn` (present iff the tunnel engine
was invoked). -/
structure HandlerResult where
  retClosed : Option Nat
  retErr : Option String
  registryAfter : List (linkInfo × Nat)
  closeCalls : Nat
  registered : Bool
  removedCount : Nat
  closedFired : Nat
  tunnelMetric : Option Nat
  tunnelKey : Option keyArray
deriving DecidableEq, Repr

/-- An error return of `link.handler` before registration: the deferred
`conn.Close` runs once, the registry is untouched, nothing fired. -/
def failRes (e : Option String) (reg : List (linkInfo × Nat)) : HandlerResult :=
  { retClosed := none, retErr := e, registryAfter := reg, closeCalls := 1,
    registered := false, removedCount := 0, closedFired := 0,
    tunnelMetric := none, tunnelKey := none }

/-- Lines 197-204 of `link.go`: the pinned-key test fires whenever the
pinned map is non-nil (`some`) and the `copy`-padded remote key is not a
member — including when the allocated set is empty. -/
def pinnedReject (opts : linkOptions) (remoteKey : keyArray) : Bool :=
  match opts.pinnedEd25519Keys with
  | none => false
  | some ks => decide (remoteKey ∉ ks)

/-- Lines 206-214 of `link.go`: `isallowed` is true when the allow-list is
empty or contains the hex encoding of the remote key; the connection is
rejected when it is incoming, not forced and not allowed. -/
def allowListReject (incoming force : Bool) (allowedKeys : List String) (rawKey : List Nat) : Bool :=
  incoming && !force && !(decide (allowedKeys = []) || decide (hexEncode rawKey ∈ allowedKeys))

/-- `link.handler` (lines 145-257 of `link.go`) as a pure function of the
link's identity (`selfId`), its options, direction and force flags, its
pre-handshake `linkInfo` (`info0`, key still zeroed) and the boundary
environment.  The branch structure follows the source line by line: send
under deadline, receive under deadline, decode, metric maximum, version
check, pinned-key check, allow-list check (which calls `intf.close()` and
then also runs the deferred close — two `Close` invocations), duplicate
lookup, and otherwise registration, tunnel hand-off and the deferred
deregistration that fires `intf.closed`. -/
def link.handler (selfId : Nat) (opts : linkOptions) (incoming force : Bool)
    (info0 : linkInfo) (env : HandshakeEnv) : HandlerResult :=
  match env.sendOutcome with
  | none => failRes (some "timeout on metadata send") env.registry
  | some sn =>
    match sn.2 with
    | some e => failRes (some e) env.registry
    | none =>
      if sn.1 ≠ metaLen then failRes (some "incomplete metadata send") env.registry
      else
        match env.recvOutcome with
        | none => failRes (some "timeout on metadata recv") env.registry
        | some rn =>
          match rn.2 with
          | some e => failRes (some e) env.registry
          | none =>
            if rn.1 ≠ metaLen then failRes (some "incomplete metadata recv") env.registry
            else
              match env.decoded with
              | none => failRes (some "failed to decode metadata") env.registry
              | some meta =>
                if env.checkOk = false then
                  failRes (some "remote node is incompatible version") env.registry
                else if pinnedReject opts (padKey meta.key) then
                  failRes (some "failed to connect: host sent ed25519 key that does not match pinned keys") env.registry
                else if allowListReject incoming force env.allowedKeys meta.key then
                  { retClosed := none, retErr := none, registryAfter := env.registry,
                    closeCalls := 2, registered := false, removedCount := 0,
                    closedFired := 0, tunnelMetric := none, tunnelKey := none }
                else
                  match alistLookup { info0 with key := padKey meta.key } env.registry with
                  | some oldId =>
                    { retClosed := some oldId, retErr := none, registryAfter := env.registry,
                      closeCalls := 1, registered := false, removedCount := 0,
                      closedFired := 0, tunnelMetric := none, tunnelKey := none }
                  | none =>
                    { retClosed := none, retErr := env.tunnelErr,
                      registryAfter := alistErase { info0 with key := padKey meta.key }
                        (({ info0 with key := padKey meta.key }, selfId) :: env.registry),
                      closeCalls := 1, registered := true, removedCount := 1,
                      closedFired := 1, tunnelMetric := some (Nat.max opts.metric meta.metric),
                      tunnelKey := some (padKey meta.key) }

/-- Pointwise update of an association list entry, used to advance the
phase of one handler in the concurrency model. -/
def alistUpdate {α β : Type} [DecidableEq α] (k : α) (f : β → β) : List (α × β) → List (α × β)
  | [] => []
  | e :: rest => if e.1 = k then (e.1, f e.2) :: rest else e :: alistUpdate k f rest

theorem alistLookup_eq_none_iff {α β : Type} [DecidableEq α] (k : α) (l : List (α × β)) :
    alistLookup k l = none ↔ k ∉ l.map Prod.fst := by
  induction l with
  | nil => simp [alistLookup]
  | cons e rest ih =>
    simp only [alistLookup, List.map_cons, List.mem_cons]
    by_cases h : e.1 = k
    · simp [h]
    · simp only [h, if_false, ih]
      constructor
      · intro hn hor
        exact hor.elim (fun hh => h hh.symm) hn
      · intro hn hm
        exact hn (Or.inr hm)

theorem alistLookup_mem_keys {α β : Type} [DecidableEq α] {k : α} {v : β} {l : List (α × β)}
    (h : alistLookup k l = some v) : k ∈ l.map Prod.fst := by
  by_contra hk
  rw [← alistLookup_eq_none_iff k l] at hk
  rw [h] at hk
  exact Option.noConfusion hk

theorem alistErase_sublist {α β : Type} [DecidableEq α] (k : α) (l : List (α × β)) :
    (alistErase k l).Sublist l := by
  induction l with
  | nil => simp [alistErase]
  | cons e rest ih =>
    by_cases h : e.1 = k
    · simp [alistErase, h]
    · simp only [alistErase, h, if_false]
      exact ih.cons₂ e

theorem alistErase_keys_nodup {α β : Type} [DecidableEq α] (k : α) {l : List (α × β)}
    (h : (l.map Prod.fst).Nodup) : ((alistErase k l).map Prod.fst).Nodup :=
  ((alistErase_sublist k l).map Prod.fst).nodup h

theorem alistLookup_erase_self {α β : Type} [DecidableEq α] (k : α) {l : List (α × β)}
    (h : (l.map Prod.fst).Nodup) : alistLookup k (alistErase k l) = none := by
  induction l with
  | nil => simp [alistErase, alistLookup]
  | cons e rest ih =>
    simp only [List.map_cons, List.nodup_cons] at h
    by_cases he : e.1 = k
    · simp only [alistErase, he, if_true]
      rw [alistLookup_eq_none_iff]
      rw [he] at h
      exact h.1
    · simp only [alistErase, he, if_false, alistLookup, if_false]
      exact ih h.2

theorem alistLookup_erase_ne {α β : Type} [DecidableEq α] {k k2 : α} (l : List (α × β))
    (h : k2 ≠ k) : alistLookup k2 (alistErase k l) = alistLookup k2 l := by
  have hk : ¬ k = k2 := fun hh => h hh.symm
  induction l with
  | nil => simp [alistErase]
  | cons e rest ih =>
    by_cases he : e.1 = k
    · have he2 : ¬ e.1 = k2 := by rw [he]; exact hk
      simp [alistErase, he, alistLookup, he2, hk]
    · by_cases he2 : e.1 = k2 <;> simp [alistErase, he, alistLookup, he2, ih, h]

theorem alistUpdate_keys {α β : Type} [DecidableEq α] (k : α) (f : β → β) (l : List (α × β)) :
    (alistUpdate k f l).map Prod.fst = l.map Prod.fst := by
  induction l with
  | nil => simp [alistUpdate]
  | cons e rest ih =>
    by_cases h : e.1 = k <;> simp [alistUpdate, h, ih]

theorem alistLookup_update_self {α β : Type} [DecidableEq α] (k : α) (f : β → β)
    (l : List (α × β)) :
    alistLookup k (alistUpdate k f l) = (alistLookup k l).map f := by
  induction l with
  | nil => simp [alistUpdate, alistLookup]
  | cons e rest ih =>
    by_cases h : e.1 = k <;> simp [alistUpdate, h, alistLookup, ih]

theorem alistLookup_update_ne {α β : Type} [DecidableEq α] {k k2 : α} (f : β → β)
    (l : List (α × β)) (h : k2 ≠ k) :
    alistLookup k2 (alistUpdate k f l) = alistLookup k2 l := by
  have hk : ¬ k = k2 := fun hh => h hh.symm
  induction l with
  | nil => simp [alistUpdate]
  | cons e rest ih =>
    by_cases he : e.1 = k
    · have he2 : ¬ e.1 = k2 := by rw [he]; exact hk
      simp [alistUpdate, he, alistLookup, he2, hk]
    · by_cases he2 : e.1 = k2 <;> simp [alistUpdate, he, alistLookup, he2, ih, h]

/-- Lifecycle phase of one handler with respect to the registry:
before the registration critical section, holding a registry entry, or
finished (either never registered or already deregistered). -/
inductive Phase where
  | pre | registered | done
deriving DecidableEq, Repr

/-- Global state of the concurrency model: the links map (`l.links`), the
set of handler instances with their key and phase, and the multiset of
`close(intf.closed)` events fired so far (ids, most recent first). -/
structure SysState where
  registry : List (linkInfo × Nat)
  procs : List (Nat × (linkInfo × Phase))
  fired : List Nat
deriving DecidableEq, Repr

/-- Advance the phase recorded for handler `id`. -/
def setPhase (id : Nat) (ph : Phase) (procs : List (Nat × (linkInfo × Phase))) :
    List (Nat × (linkInfo × Phase)) :=
  alistUpdate id (fun v => (v.1, ph)) procs

/-- Atomic transitions of the registry model, one per critical section of
`link.go`:
* `spawn` — a new handler with a fresh id starts, not yet at the mutex;
* `exitPre` — a handler returns without ever registering (any error path,
  the silent allow-list rejection, or the duplicate path of lines 223-228,
  none of which touch the map);
* `regStep` — lines 222-240, the locked check-then-insert: only enabled
  when the key is absent, and it inserts this handler's entry;
* `deregStep` — lines 232-237, the deferred cleanup: the locked
  unconditional `delete` of this handler's key followed by
  `close(intf.closed)`. -/
inductive Step : SysState → SysState → Prop where
  | spawn (s : SysState) (id : Nat) (info : linkInfo) :
      alistLookup id s.procs = none →
      Step s { s with procs := (id, (info, Phase.pre)) :: s.procs }
  | exitPre (s : SysState) (id : Nat) (info : linkInfo) :
      alistLookup id s.procs = some (info, Phase.pre) →
      Step s { s with procs := setPhase id Phase.done s.procs }
  | regStep (s : SysState) (id : Nat) (info : linkInfo) :
      alistLookup id s.procs = some (info, Phase.pre) →
      alistLookup info s.registry = none →
      Step s { registry := (info, id) :: s.registry,
               procs := setPhase id Phase.registered s.procs,
               fired := s.fired }
  | deregStep (s : SysState) (id : Nat) (info : linkInfo) :
      alistLookup id s.procs = some (info, Phase.registered) →
      Step s { registry := alistErase info s.registry,
               procs := setPhase id Phase.done s.procs,
               fired := id :: s.fired }

/-- States reachable from the freshly initialised registry
(`links.init`: empty map, no handlers, nothing fired). -/
inductive Reachable : SysState → Prop where
  | init : Reachable { registry := [], procs := [], fired := [] }
  | step {s t : SysState} : Reachable s → Step s t → Reachable t

/-- Reflexive-transitive closure of `Step`, used to speak about the whole
future of a state. -/
inductive StepStar : SysState → SysState → Prop where
  | refl (s : SysState) : StepStar s s
  | tail {s t u : SysState} : StepStar s t → Step t u → StepStar s u

/-- The inductive invariant of the registry model: handler ids are unique,
registry keys are unique, registry entries and `registered` handlers are
in exact correspondence, every closure signal fires at most once, a
handler that is not `done` has not fired, and every fired id belongs to a
`done` handler. -/
def RegInv (s : SysState) : Prop :=
  (s.procs.map Prod.fst).Nodup ∧
  (s.registry.map Prod.fst).Nodup ∧
  (∀ info id, alistLookup info s.registry = some id →
     alistLookup id s.procs = some (info, Phase.registered)) ∧
  (∀ id info, alistLookup id s.procs = some (info, Phase.registered) →
     alistLookup info s.registry = some id) ∧
  (∀ id, s.fired.count id ≤ 1) ∧
  (∀ id info ph, alistLookup id s.procs = some (info, ph) → ph ≠ Phase.done →
     s.fired.count id = 0) ∧
  (∀ id, id ∈ s.fired → ∃ info, alistLookup id s.procs = some (info, Phase.done))

theorem setPhase_keys (id : Nat) (ph : Phase) (procs : List (Nat × (linkInfo × Phase))) :
    (setPhase id ph procs).map Prod.fst = procs.map Prod.fst :=
  alistUpdate_keys _ _ _

theorem alistLookup_setPhase_self (id : Nat) (ph : Phase)
    (procs : List (Nat × (linkInfo × Phase))) :
    alistLookup id (setPhase id ph procs) =
      (alistLookup id procs).map (fun v => (v.1, ph)) :=
  alistLookup_update_self _ _ _

theorem alistLookup_setPhase_ne {id id2 : Nat} (ph : Phase)
    (procs : List (Nat × (linkInfo × Phase))) (h : id2 ≠ id) :
    alistLookup id2 (setPhase id ph procs) = alistLookup id2 procs :=
  alistLookup_update_ne _ _ h

/-- The registry invariant holds in every reachable state. -/
theorem reginv_reachable : ∀ s : SysState, Reachable s → RegInv s := by
  intro sfin hr
  induction hr with
  | init =>
    refine ⟨?_, ?_, ?_, ?_, ?_, ?_, ?_⟩ <;> simp [alistLookup, RegInv]
  | @step s t hr hstep ih =>
    obtain ⟨A1, A2, A3, A4, A5, A6, A7⟩ := ih
    cases hstep with
    | spawn id info hfresh =>
      have hnotin : id ∉ s.procs.map Prod.fst := (alistLookup_eq_none_iff id s.procs).mp hfresh
      have hnotfired : id ∉ s.fired := by
        intro hmem
        obtain ⟨info3, hl⟩ := A7 id hmem
        rw [hfresh] at hl
        exact Option.noConfusion hl
      refine ⟨?_, A2, ?_, ?_, A5, ?_, ?_⟩
      · exact List.nodup_cons.mpr ⟨hnotin, A1⟩
      · intro info2 id2 hrg
        have h3 := A3 info2 id2 hrg
        by_cases hid : id = id2
        · subst hid
          rw [hfresh] at h3
          exact Option.noConfusion h3
        · simpa [alistLookup, hid] using h3
      · intro id2 info2 hl
        by_cases hid : id = id2
        · simp [alistLookup, hid] at hl
        · simp only [alistLookup, hid, if_false] at hl
          exact A4 id2 info2 hl
      · intro id2 info2 ph hl hne
        by_cases hid : id = id2
        · subst hid
          exact List.count_eq_zero.mpr hnotfired
        · simp only [alistLookup, hid, if_false] at hl
          exact A6 id2 info2 ph hl hne
      · intro id2 hmem
        obtain ⟨info2, hl⟩ := A7 id2 hmem
        have hid : ¬ id = id2 := by
          intro hh
          subst hh
          rw [hfresh] at hl
          exact Option.noConfusion hl
        exact ⟨info2, by simp only [alistLookup, hid, if_false]; exact hl⟩
    | exitPre id info h =>
      refine ⟨?_, A2, ?_, ?_, A5, ?_, ?_⟩
      · rw [setPhase_keys]; exact A1
      · intro info2 id2 hrg
        have h3 := A3 info2 id2 hrg
        have hid : id2 ≠ id := by
          intro hh
          subst hh
          rw [h] at h3
          simp at h3
        rw [alistLookup_setPhase_ne _ _ hid]
        exact h3
      · intro id2 info2 hl
        by_cases hid : id2 = id
        · subst hid
          rw [alistLookup_setPhase_self, h] at hl
          simp at hl
        · rw [alistLookup_setPhase_ne _ _ hid] at hl
          exact A4 id2 info2 hl
      · intro id2 info2 ph hl hne
        by_cases hid : id2 = id
        · subst hid
          rw [alistLookup_setPhase_self, h] at hl
          simp at hl
          exact absurd hl.2.symm hne
        · rw [alistLookup_setPhase_ne _ _ hid] at hl
          exact A6 id2 info2 ph hl hne
      · intro id2 hmem
        obtain ⟨info2, hl⟩ := A7 id2 hmem
        by_cases hid : id2 = id
        · subst hid
          rw [h] at hl
          simp at hl
        · exact ⟨info2, by rw [alistLookup_setPhase_ne _ _ hid]; exact hl⟩
    | regStep id info h hreg =>
      refine ⟨?_, ?_, ?_, ?_, A5, ?_, ?_⟩
      · rw [setPhase_keys]; exact A1
      · exact List.nodup_cons.mpr ⟨(alistLookup_eq_none_iff info s.registry).mp hreg, A2⟩
      · intro info2 id2 hrg
        simp only [alistLookup] at hrg
        by_cases hinfo : info = info2
        · simp only [hinfo, if_true, Option.some.injEq] at hrg
          subst hrg
          rw [← hinfo]
          rw [alistLookup_setPhase_self, h]
          rfl
        · simp only [hinfo, if_false] at hrg
          have h3 := A3 info2 id2 hrg
          have hid : id2 ≠ id := by
            intro hh
            subst hh
            rw [h] at h3
            simp at h3
          rw [alistLookup_setPhase_ne _ _ hid]
          exact h3
      · intro id2 info2 hl
        by_cases hid : id2 = id
        · subst hid
          rw [alistLookup_setPhase_self, h] at hl
          have hinfo : info = info2 := by
            simp at hl
            exact hl
          subst hinfo
          simp [alistLookup]
        · rw [alistLookup_setPhase_ne _ _ hid] at hl
          have h4 := A4 id2 info2 hl
          have hinfo : ¬ info = info2 := by
            intro hh
            subst hh
            rw [hreg] at h4
            exact Option.noConfusion h4
          simp only [alistLookup, hinfo, if_false]
          exact h4
      · intro id2 info2 ph hl hne
        by_cases hid : id2 = id
        · subst hid
          exact A6 id2 info Phase.pre h (by simp)
        · rw [alistLookup_setPhase_ne _ _ hid] at hl
          exact A6 id2 info2 ph hl hne
      · intro id2 hmem
        obtain ⟨info2, hl⟩ := A7 id2 hmem
        have hid : id2 ≠ id := by
          intro hh
          subst hh
          rw [h] at hl
          simp at hl
        exact ⟨info2, by rw [alistLookup_setPhase_ne _ _ hid]; exact hl⟩
    | deregStep id info h =>
      have hcount0 : s.fired.count id = 0 := A6 id info Phase.registered h (by simp)
      refine ⟨?_, ?_, ?_, ?_, ?_, ?_, ?_⟩
      · rw [setPhase_keys]; exact A1
      · exact alistErase_keys_nodup info A2
      · intro info2 id2 hrg
        by_cases hinfo : info2 = info
        · subst hinfo
          rw [alistLookup_erase_self info2 A2] at hrg
          exact Option.noConfusion hrg
        · rw [alistLookup_erase_ne _ hinfo] at hrg
          have h3 := A3 info2 id2 hrg
          have hid : id2 ≠ id := by
            intro hh
            subst hh
            rw [h] at h3
            simp only [Option.some.injEq] at h3
            exact hinfo ((Prod.mk.injEq _ _ _ _).mp h3 |>.1).symm
          rw [alistLookup_setPhase_ne _ _ hid]
          exact h3
      · intro id2 info2 hl
        by_cases hid : id2 = id
        · subst hid
          rw [alistLookup_setPhase_self, h] at hl
          simp at hl
        · rw [alistLookup_setPhase_ne _ _ hid] at hl
          have h4 := A4 id2 info2 hl
          have hinfo : info2 ≠ info := by
            intro hh
            subst hh
            have h4b := A4 id info2 h
            rw [h4b] at h4
            exact hid (Option.some.inj h4).symm
          rw [alistLookup_erase_ne _ hinfo]
          exact h4
      · intro id2
        by_cases hid : id2 = id
        · subst hid
          simp [List.count_cons_self, hcount0]
        · rw [List.count_cons_of_ne hid]
          exact A5 id2
      · intro id2 info2 ph hl hne
        have hid : id2 ≠ id := by
          intro hh
          subst hh
          rw [alistLookup_setPhase_self, h] at hl
          simp at hl
          exact hne hl.2.symm
        rw [alistLookup_setPhase_ne _ _ hid] at hl
        rw [List.count_cons_of_ne hid]
        exact A6 id2 info2 ph hl hne
      · intro id2 hmem
        rcases List.mem_cons.mp hmem with hid | hmem2
        · subst hid
          refine ⟨info, ?_⟩
          rw [alistLookup_setPhase_self, h]
          rfl
        · obtain ⟨info2, hl⟩ := A7 id2 hmem2
          have hid : id2 ≠ id := by
            intro hh
            subst hh
            rw [h] at hl
            simp at hl
          exact ⟨info2, by rw [alistLookup_setPhase_ne _ _ hid]; exact hl⟩

theorem stepstar_reachable {s t : SysState} (hs : Reachable s) (h : StepStar s t) :
    Reachable t := by
  induction h with
  | refl => exact hs
  | tail _ hstep ih => exact Reachable.step ih hstep

theorem step_count_mono {s t : SysState} (id : Nat) (h : Step s t) :
    s.fired.count id ≤ t.fired.count id := by
  cases h with
  | spawn id2 info hfresh => exact Nat.le_refl _
  | exitPre id2 info h2 => exact Nat.le_refl _
  | regStep id2 info h2 hreg => exact Nat.le_refl _
  | deregStep id2 info h2 =>
    by_cases hid : id = id2
    · subst hid
      rw [List.count_cons_self]
      exact Nat.le_succ _
    · rw [List.count_cons_of_ne hid]

theorem stepstar_count_mono {s t : SysState} (id : Nat) (h : StepStar s t) :
    s.fired.count id ≤ t.fired.count id := by
  induction h with
  | refl => exact Nat.le_refl _
  | tail _ hstep ih => exact Nat.le_trans ih (step_count_mono id hstep)

/-- **C1.** In every reachable state of the link registry at most one live
link is mapped per distinct `linkInfo` key (the key list of the map is
duplicate-free), and when the handshake's registration step finds an
existing live link under its key it returns that link's closure signal,
returns no error, does not insert the new link and leaves the registry
unchanged (lines 223-228 of `link.go`). -/
theorem registry_at_most_one_live_link_and_duplicate_policy :
    (∀ s : SysState, Reachable s → (s.registry.map Prod.fst).Nodup) ∧
    (∀ (selfId : Nat) (opts : linkOptions) (incoming force : Bool) (info0 : linkInfo)
       (env : HandshakeEnv) (m : version_metadata) (oldId : Nat),
       env.sendOutcome = some (metaLen, none) →
       env.recvOutcome = some (metaLen, none) →
       env.decoded = some m →
       env.checkOk = true →
       pinnedReject opts (padKey m.key) = false →
       allowListReject incoming force env.allowedKeys m.key = false →
       alistLookup { info0 with key := padKey m.key } env.registry = some oldId →
       (link.handler selfId opts incoming force info0 env).retClosed = some oldId ∧
       (link.handler selfId opts incoming force info0 env).retErr = none ∧
       (link.handler selfId opts incoming force info0 env).registered = false ∧
       (link.handler selfId opts incoming force info0 env).registryAfter = env.registry) := by
  constructor
  · intro s hs
    exact (reginv_reachable s hs).2.1
  · intro selfId opts incoming force info0 env m oldId hsend hrecv hdec hchk hpin hallow hdup
    simp [link.handler, hsend, hrecv, hdec, hchk, hpin, hallow, hdup, metaLen]

/-- Witness for `registry_at_most_one_live_link_and_duplicate_policy`:
the initial state, and a concrete duplicate handshake against a registry
already holding the key, which gets the old link's signal `7`. -/
theorem registry_at_most_one_live_link_and_duplicate_policy_witness :
    ((SysState.mk [] [] []).registry.map Prod.fst).Nodup ∧
    ((link.handler 1 ⟨none, 0⟩ false false ⟨[], "tcp", "lo", "re"⟩
        ⟨some (35, none), some (35, none), some ⟨1, 0, [], 5⟩, true, [],
         [(⟨padKey [], "tcp", "lo", "re"⟩, 7)], none⟩).retClosed = some 7 ∧
     (link.handler 1 ⟨none, 0⟩ false false ⟨[], "tcp", "lo", "re"⟩
        ⟨some (35, none), some (35, none), some ⟨1, 0, [], 5⟩, true, [],
         [(⟨padKey [], "tcp", "lo", "re"⟩, 7)], none⟩).retErr = none ∧
     (link.handler 1 ⟨none, 0⟩ false false ⟨[], "tcp", "lo", "re"⟩
        ⟨some (35, none), some (35, none), some ⟨1, 0, [], 5⟩, true, [],
         [(⟨padKey [], "tcp", "lo", "re"⟩, 7)], none⟩).registered = false ∧
     (link.handler 1 ⟨none, 0⟩ false false ⟨[], "tcp", "lo", "re"⟩
        ⟨some (35, none), some (35, none), some ⟨1, 0, [], 5⟩, true, [],
         [(⟨padKey [], "tcp", "lo", "re"⟩, 7)], none⟩).registryAfter =
       [(⟨padKey [], "tcp", "lo", "re"⟩, 7)]) :=
  ⟨registry_at_most_one_live_link_and_duplicate_policy.1 _ Reachable.init,
   registry_at_most_one_live_link_and_duplicate_policy.2 1 ⟨none, 0⟩ false false
     ⟨[], "tcp", "lo", "re"⟩
     ⟨some (35, none), some (35, none), some ⟨1, 0, [], 5⟩, true, [],
      [(⟨padKey [], "tcp", "lo", "re"⟩, 7)], none⟩
     ⟨1, 0, [], 5⟩ 7 rfl rfl rfl rfl (by decide) (by decide) (by decide)⟩

/-- **C2.** In every reachable state, a link that holds a registry
registration is still the exact link mapped under its key, so its
deregistration (the deferred `delete` of lines 232-237) removes only its
own entry — never an entry of another link under the same or a different
key — and fires its closure signal exactly once, now and in every
subsequent reachable state. -/
theorem dereg_removes_only_own_entry_and_fires_once :
    ∀ s : SysState, Reachable s → ∀ (id : Nat) (info : linkInfo),
      alistLookup id s.procs = some (info, Phase.registered) →
      alistLookup info s.registry = some id ∧
      alistLookup info (alistErase info s.registry) = none ∧
      (∀ info2, info2 ≠ info →
        alistLookup info2 (alistErase info s.registry) = alistLookup info2 s.registry) ∧
      (id :: s.fired).count id = 1 ∧
      (∀ u : SysState,
        StepStar { registry := alistErase info s.registry,
                   procs := setPhase id Phase.done s.procs,
                   fired := id :: s.fired } u →
        u.fired.count id = 1) := by
  intro s hs id info hproc
  obtain ⟨A1, A2, A3, A4, A5, A6, A7⟩ := reginv_reachable s hs
  have hcount0 : s.fired.count id = 0 := A6 id info Phase.registered hproc (by simp)
  have hmapped : alistLookup info s.registry = some id := A4 id info hproc
  have ht : Reachable { registry := alistErase info s.registry,
                        procs := setPhase id Phase.done s.procs,
                        fired := id :: s.fired } :=
    Reachable.step hs (Step.deregStep s id info hproc)
  refine ⟨hmapped, alistLookup_erase_self info A2, ?_, ?_, ?_⟩
  · intro info2 hne
    exact alistLookup_erase_ne _ hne
  · rw [List.count_cons_self, hcount0]
  · intro u hstar
    have hu : Reachable u := stepstar_reachable ht hstar
    have hle : u.fired.count id ≤ 1 := (reginv_reachable u hu).2.2.2.2.1 id
    have hge : (1 : Nat) ≤ u.fired.count id := by
      have hmono := stepstar_count_mono id hstar
      simp only [List.count_cons_self, hcount0] at hmono
      exact hmono
    exact Nat.le_antisymm hle hge

/-- Witness for `dereg_removes_only_own_entry_and_fires_once`: the
two-step reachable state in which handler `0` has registered key
`⟨padKey [], "tcp", "a", "b"⟩`. -/
theorem dereg_removes_only_own_entry_and_fires_once_witness :
    Reachable (SysState.mk [(⟨padKey [], "tcp", "a", "b"⟩, 0)]
        [(0, (⟨padKey [], "tcp", "a", "b"⟩, Phase.registered))] []) ∧
    alistLookup 0 (SysState.mk [(⟨padKey [], "tcp", "a", "b"⟩, 0)]
        [(0, (⟨padKey [], "tcp", "a", "b"⟩, Phase.registered))] []).procs =
      some (⟨padKey [], "tcp", "a", "b"⟩, Phase.registered) ∧
    alistLookup (⟨padKey [], "tcp", "a", "b"⟩ : linkInfo)
      (SysState.mk [(⟨padKey [], "tcp", "a", "b"⟩, 0)]
        [(0, (⟨padKey [], "tcp", "a", "b"⟩, Phase.registered))] []).registry = some 0 :=
  have h1 : Reachable (SysState.mk []
      [(0, (⟨padKey [], "tcp", "a", "b"⟩, Phase.pre))] []) :=
    Reachable.step Reachable.init (Step.spawn _ 0 ⟨padKey [], "tcp", "a", "b"⟩ rfl)
  have h2 : Reachable (SysState.mk [(⟨padKey [], "tcp", "a", "b"⟩, 0)]
      [(0, (⟨padKey [], "tcp", "a", "b"⟩, Phase.registered))] []) :=
    Reachable.step h1 (Step.regStep _ 0 ⟨padKey [], "tcp", "a", "b"⟩ (by decide) rfl)
  ⟨h2, by decide,
   (dereg_removes_only_own_entry_and_fires_once _ h2 0 ⟨padKey [], "tcp", "a", "b"⟩
     (by decide)).1⟩

/-- **C3.** For every pair of `uint8` values (locally configured metric,
remote-advertised metric), a handshake that reaches the tunnel hand-off
passes `HandleConn` the maximum of the two (lines 150-151 and 184-186 of
`link.go`). -/
theorem effective_metric_is_max :
    ∀ (selfId : Nat) (opts : linkOptions) (incoming force : Bool) (info0 : linkInfo)
      (env : HandshakeEnv) (m : version_metadata),
      opts.metric < 256 →
      m.metric < 256 →
      env.sendOutcome = some (metaLen, none) →
      env.recvOutcome = some (metaLen, none) →
      env.decoded = some m →
      env.checkOk = true →
      pinnedReject opts (padKey m.key) = false →
      allowListReject incoming force env.allowedKeys m.key = false →
      alistLookup { info0 with key := padKey m.key } env.registry = none →
      (link.handler selfId opts incoming force info0 env).tunnelMetric =
        some (Nat.max opts.metric m.metric) := by
  intro selfId opts incoming force info0 env m hlm hrm hsend hrecv hdec hchk hpin hallow hdup
  simp [link.handler, hsend, hrecv, hdec, hchk, hpin, hallow, hdup, metaLen]

/-- Witness for `effective_metric_is_max`: local metric 7 against remote
metric 9 hands 9 to the tunnel engine. -/
theorem effective_metric_is_max_witness :
    (7 : Nat) < 256 ∧ (9 : Nat) < 256 ∧
    (link.handler 0 ⟨none, 7⟩ false false ⟨[], "tcp", "lo", "re"⟩
       ⟨some (35, none), some (35, none), some ⟨1, 0, [4], 9⟩, true, [], [], none⟩).tunnelMetric =
      some (Nat.max 7 9) :=
  ⟨by decide, by decide,
   effective_metric_is_max 0 ⟨none, 7⟩ false false ⟨[], "tcp", "lo", "re"⟩
     ⟨some (35, none), some (35, none), some ⟨1, 0, [4], 9⟩, true, [], [], none⟩
     ⟨1, 0, [4], 9⟩ (by decide) (by decide) rfl rfl rfl rfl (by decide) (by decide) (by decide)⟩

/-- **C4.** An incoming, non-forced connection whose remote identity is
absent from a configured non-empty allow-list, and whose handshake reaches
the authorization check (earlier protocol and pinned-key steps pass), is
rejected silently: the connection is closed, no link is registered, the
registry is untouched, and the caller gets a nil error and a nil closure
signal (lines 206-219 of `link.go`). -/
theorem allowlist_silent_reject :
    ∀ (selfId : Nat) (opts : linkOptions) (incoming force : Bool) (info0 : linkInfo)
      (env : HandshakeEnv) (m : version_metadata),
      env.sendOutcome = some (metaLen, none) →
      env.recvOutcome = some (metaLen, none) →
      env.decoded = some m →
      env.checkOk = true →
      pinnedReject opts (padKey m.key) = false →
      incoming = true →
      force = false →
      env.allowedKeys ≠ [] →
      hexEncode m.key ∉ env.allowedKeys →
      (link.handler selfId opts incoming force info0 env).retErr = none ∧
      (link.handler selfId opts incoming force info0 env).retClosed = none ∧
      (link.handler selfId opts incoming force info0 env).registered = false ∧
      (link.handler selfId opts incoming force info0 env).registryAfter = env.registry ∧
      1 ≤ (link.handler selfId opts incoming force info0 env).closeCalls := by
  intro selfId opts incoming force info0 env m hsend hrecv hdec hchk hpin hin hforce hne hmem
  have hallow : allowListReject incoming force env.allowedKeys m.key = true := by
    simp [allowListReject, hin, hforce, hne, hmem]
  simp [link.handler, hsend, hrecv, hdec, hchk, hpin, hallow, metaLen]

/-- Witness for `allowlist_silent_reject`: a concrete incoming connection
with allow-list `["aa"]` and remote key `[]` (hex `""`). -/
theorem allowlist_silent_reject_witness :
    ("aa" :: []) ≠ ([] : List String) ∧ hexEncode [] ∉ ("aa" :: []) ∧
    (link.handler 0 ⟨none, 0⟩ true false ⟨[], "tcp", "lo", "re"⟩
       ⟨some (35, none), some (35, none), some ⟨1, 0, [], 0⟩, true, ["aa"], [], none⟩).retErr = none ∧
    (link.handler 0 ⟨none, 0⟩ true false ⟨[], "tcp", "lo", "re"⟩
       ⟨some (35, none), some (35, none), some ⟨1, 0, [], 0⟩, true, ["aa"], [], none⟩).registered = false :=
  ⟨by decide, by decide,
   (allowlist_silent_reject 0 ⟨none, 0⟩ true false ⟨[], "tcp", "lo", "re"⟩
      ⟨some (35, none), some (35, none), some ⟨1, 0, [], 0⟩, true, ["aa"], [], none⟩
      ⟨1, 0, [], 0⟩ rfl rfl rfl rfl (by decide) rfl rfl (by decide) (by decide)).1,
   (allowlist_silent_reject 0 ⟨none, 0⟩ true false ⟨[], "tcp", "lo", "re"⟩
      ⟨some (35, none), some (35, none), some ⟨1, 0, [], 0⟩, true, ["aa"], [], none⟩
      ⟨1, 0, [], 0⟩ rfl rfl rfl rfl (by decide) rfl rfl (by decide) (by decide)).2.2.1⟩

/-- **C5.** Whenever the pinned-key set is configured (non-nil) and does
not contain the remote's advertised identity, a handshake that reaches the
pinned check — in either direction, forced or not — returns the reported
pinned-key mismatch error and registers nothing (lines 197-204 of
`link.go`). -/
theorem pinned_key_mismatch_rejects :
    ∀ (selfId : Nat) (opts : linkOptions) (incoming force : Bool) (info0 : linkInfo)
      (env : HandshakeEnv) (m : version_metadata) (ks : List keyArray),
      env.sendOutcome = some (metaLen, none) →
      env.recvOutcome = some (metaLen, none) →
      env.decoded = some m →
      env.checkOk = true →
      opts.pinnedEd25519Keys = some ks →
      padKey m.key ∉ ks →
      (link.handler selfId opts incoming force info0 env).retErr =
        some "failed to connect: host sent ed25519 key that does not match pinned keys" ∧
      (link.handler selfId opts incoming force info0 env).retClosed = none ∧
      (link.handler selfId opts incoming force info0 env).registered = false ∧
      (link.handler selfId opts incoming force info0 env).registryAfter = env.registry := by
  intro selfId opts incoming force info0 env m ks hsend hrecv hdec hchk hp hmem
  have hpin : pinnedReject opts (padKey m.key) = true := by
    simp [pinnedReject, hp, hmem]
  simp [link.handler, failRes, hsend, hrecv, hdec, hchk, hpin, metaLen]

/-- Witness for `pinned_key_mismatch_rejects`: an outgoing connection with
pinned set `[padKey [1]]` and remote key `[2]`. -/
theorem pinned_key_mismatch_rejects_witness :
    (⟨some [padKey [1]], 0⟩ : linkOptions).pinnedEd25519Keys = some [padKey [1]] ∧
    padKey [2] ∉ [padKey [1]] ∧
    (link.handler 0 ⟨some [padKey [1]], 0⟩ false true ⟨[], "tcp", "lo", "re"⟩
       ⟨some (35, none), some (35, none), some ⟨1, 0, [2], 0⟩, true, [], [], none⟩).retErr =
      some "failed to connect: host sent ed25519 key that does not match pinned keys" ∧
    (link.handler 0 ⟨some [padKey [1]], 0⟩ false true ⟨[], "tcp", "lo", "re"⟩
       ⟨some (35, none), some (35, none), some ⟨1, 0, [2], 0⟩, true, [], [], none⟩).registered = false :=
  ⟨rfl, by decide,
   (pinned_key_mismatch_rejects 0 ⟨some [padKey [1]], 0⟩ false true ⟨[], "tcp", "lo", "re"⟩
      ⟨some (35, none), some (35, none), some ⟨1, 0, [2], 0⟩, true, [], [], none⟩
      ⟨1, 0, [2], 0⟩ [padKey [1]] rfl rfl rfl rfl rfl (by decide)).1,
   (pinned_key_mismatch_rejects 0 ⟨some [padKey [1]], 0⟩ false true ⟨[], "tcp", "lo", "re"⟩
      ⟨some (35, none), some (35, none), some ⟨1, 0, [2], 0⟩, true, [], [], none⟩
      ⟨1, 0, [2], 0⟩ [padKey [1]] rfl rfl rfl rfl rfl (by decide)).2.2.1⟩

/-- **C6 counterexample.** On the silent allow-list rejection path the raw
connection's `Close` is invoked twice — the explicit `intf.close()` of
line 217 plus the deferred `intf.conn.Close()` of line 147 — so the
connection is not closed exactly once on every exit path of the
handshake. -/
theorem close_exactly_once_counterexample :
    (link.handler 0 ⟨none, 0⟩ true false ⟨[], "tcp", "lo", "re"⟩
       ⟨some (35, none), some (35, none), some ⟨1, 0, [], 0⟩, true, ["aa"], [],
        none⟩).closeCalls ≠ 1 := by
  decide

/-- **C6 (amended).** On every exit path of the handshake the raw
connection's `Close` is invoked at least once and at most twice; it is
invoked twice only on the silent allow-list rejection exit (the one that
reports no error, returns no closure signal and registers nothing), and
any registry entry created for this attempt is removed exactly once —
and none is removed when no entry was created. -/
theorem connection_closed_and_entry_removed :
    ∀ (selfId : Nat) (opts : linkOptions) (incoming force : Bool) (info0 : linkInfo)
      (env : HandshakeEnv),
      (1 ≤ (link.handler selfId opts incoming force info0 env).closeCalls ∧
       (link.handler selfId opts incoming force info0 env).closeCalls ≤ 2) ∧
      ((link.handler selfId opts incoming force info0 env).closeCalls = 2 →
        (link.handler selfId opts incoming force info0 env).retErr = none ∧
        (link.handler selfId opts incoming force info0 env).retClosed = none ∧
        (link.handler selfId opts incoming force info0 env).registered = false) ∧
      ((link.handler selfId opts incoming force info0 env).registered = true →
        (link.handler selfId opts incoming force info0 env).removedCount = 1) ∧
      ((link.handler selfId opts incoming force info0 env).registered = false →
        (link.handler selfId opts incoming force info0 env).removedCount = 0) := by
  intro selfId opts incoming force info0 env
  unfold link.handler
  repeat' split
  all_goals simp [failRes]

/-- Witness for `connection_closed_and_entry_removed`: on the concrete
silent-rejection input, discharging the `closeCalls = 2` hypothesis shows
that exit is exactly the silent one. -/
theorem connection_closed_and_entry_removed_witness :
    (link.handler 0 ⟨none, 0⟩ true false ⟨[], "tcp", "lo", "re"⟩
       ⟨some (35, none), some (35, none), some ⟨1, 0, [], 0⟩, true, ["aa"], [], none⟩).retErr = none ∧
    (link.handler 0 ⟨none, 0⟩ true false ⟨[], "tcp", "lo", "re"⟩
       ⟨some (35, none), some (35, none), some ⟨1, 0, [], 0⟩, true, ["aa"], [], none⟩).retClosed = none ∧
    (link.handler 0 ⟨none, 0⟩ true false ⟨[], "tcp", "lo", "re"⟩
       ⟨some (35, none), some (35, none), some ⟨1, 0, [], 0⟩, true, ["aa"], [], none⟩).registered = false :=
  (connection_closed_and_entry_removed 0 ⟨none, 0⟩ true false ⟨[], "tcp", "lo", "re"⟩
     ⟨some (35, none), some (35, none), some ⟨1, 0, [], 0⟩, true, ["aa"], [], none⟩).2.1
    (by decide)

/-- **C7 counterexample.** `stop()` is not idempotent: the second call
reaches `close(l.stopped)` on an already-closed channel, a runtime fault,
rather than returning without error. -/
theorem stop_second_call_faults :
    (links.stop (links.stop ⟨false⟩ none).2 none).1 =
      StopOutcome.panicked "close of closed channel" := rfl

/-- **C7 (amended).** A first `stop()` closes the process-wide stop signal
and propagates the transport adapter's stop error, but `stop()` is not
idempotent: every further call faults by closing the already-closed stop
channel, before the adapters are stopped again. -/
theorem stop_closes_once_then_faults :
    ∀ e e2 : Option String,
      links.stop ⟨false⟩ e = (StopOutcome.returned e, ⟨true⟩) ∧
      links.stop (links.stop ⟨false⟩ e).2 e2 =
        (StopOutcome.panicked "close of closed channel", ⟨true⟩) := by
  intro e e2
  exact ⟨rfl, rfl⟩

/-- **C8.** The metadata send and receive are each guarded by their own
fixed 30-second deadline; deadline expiry or a short transfer on either
step returns a fatal error — with four pairwise-distinct error values
distinguishing timeout from incomplete transfer, and send from receive —
and no link is registered and the registry is unchanged (lines 154-178 of
`link.go`). -/
theorem metadata_deadline_and_short_io_errors :
    ∀ (selfId : Nat) (opts : linkOptions) (incoming force : Bool) (info0 : linkInfo)
      (env : HandshakeEnv),
      (env.sendOutcome = none →
        (link.handler selfId opts incoming force info0 env).retErr =
          some "timeout on metadata send" ∧
        (link.handler selfId opts incoming force info0 env).registered = false ∧
        (link.handler selfId opts incoming force info0 env).registryAfter = env.registry) ∧
      (∀ n : Nat, env.sendOutcome = some (n, none) → n ≠ metaLen →
        (link.handler selfId opts incoming force info0 env).retErr =
          some "incomplete metadata send" ∧
        (link.handler selfId opts incoming force info0 env).registered = false ∧
        (link.handler selfId opts incoming force info0 env).registryAfter = env.registry) ∧
      (env.sendOutcome = some (metaLen, none) → env.recvOutcome = none →
        (link.handler selfId opts incoming force info0 env).retErr =
          some "timeout on metadata recv" ∧
        (link.handler selfId opts incoming force info0 env).registered = false ∧
        (link.handler selfId opts incoming force info0 env).registryAfter = env.registry) ∧
      (∀ n : Nat, env.sendOutcome = some (metaLen, none) →
        env.recvOutcome = some (n, none) → n ≠ metaLen →
        (link.handler selfId opts incoming force info0 env).retErr =
          some "incomplete metadata recv" ∧
        (link.handler selfId opts incoming force info0 env).registered = false ∧
        (link.handler selfId opts incoming force info0 env).registryAfter = env.registry) ∧
      ((some "timeout on metadata send" ≠ (some "incomplete metadata send" : Option String)) ∧
       (some "timeout on metadata recv" ≠ (some "incomplete metadata recv" : Option String)) ∧
       (some "timeout on metadata send" ≠ (some "timeout on metadata recv" : Option String)) ∧
       (some "incomplete metadata send" ≠ (some "incomplete metadata recv" : Option String))) ∧
      metadataSendTimeout = 30 ∧ metadataRecvTimeout = 30 := by
  intro selfId opts incoming force info0 env
  refine ⟨?_, ?_, ?_, ?_, ⟨by decide, by decide, by decide, by decide⟩, rfl, rfl⟩
  · intro hsend
    simp [link.handler, failRes, hsend]
  · intro n hsend hn
    simp [link.handler, failRes, hsend, hn]
  · intro hsend hrecv
    simp [link.handler, failRes, hsend, hrecv, metaLen]
  · intro n hsend hrecv hn
    have hn2 : ¬ n = 35 := by simpa [metaLen] using hn
    simp [link.handler, failRes, hsend, hrecv, hn2, metaLen]

/-- Witness for `metadata_deadline_and_short_io_errors`: a send timeout
and a short receive, each on a concrete environment. -/
theorem metadata_deadline_and_short_io_errors_witness :
    (link.handler 0 ⟨none, 0⟩ true false ⟨[], "tcp", "lo", "re"⟩
       ⟨none, none, none, true, [], [], none⟩).retErr = some "timeout on metadata send" ∧
    (link.handler 0 ⟨none, 0⟩ true false ⟨[], "tcp", "lo", "re"⟩
       ⟨some (35, none), some (3, none), none, true, [], [], none⟩).retErr =
      some "incomplete metadata recv" :=
  ⟨((metadata_deadline_and_short_io_errors 0 ⟨none, 0⟩ true false ⟨[], "tcp", "lo", "re"⟩
      ⟨none, none, none, true, [], [], none⟩).1 rfl).1,
   ((metadata_deadline_and_short_io_errors 0 ⟨none, 0⟩ true false ⟨[], "tcp", "lo", "re"⟩
      ⟨some (35, none), some (3, none), none, true, [], [], none⟩).2.2.2.1 3 rfl rfl
      (by decide)).1⟩

/-- **C9.** `call` returns an error exactly when the URI scheme is none of
`tcp`, `socks`, `tls`, and that error names the unknown scheme; for the
recognized schemes it returns nil — the asynchronous dial's later success
or failure is never reported back through `call` (lines 98-116 of
`link.go`). -/
theorem call_unknown_scheme_error :
    (∀ u : urlModel, (links.call u).err = none ↔
       (u.scheme = "tcp" ∨ u.scheme = "socks" ∨ u.scheme = "tls")) ∧
    (∀ u : urlModel, u.scheme ≠ "tcp" → u.scheme ≠ "socks" → u.scheme ≠ "tls" →
       (links.call u).err = some ("unknown call scheme: " ++ u.scheme)) := by
  constructor
  · intro u
    by_cases h1 : u.scheme = "tcp"
    · simp [links.call, h1]
    · by_cases h2 : u.scheme = "socks"
      · simp [links.call, h1, h2]
      · by_cases h3 : u.scheme = "tls"
        · simp [links.call, h1, h2, h3]
        · simp [links.call, h1, h2, h3]
  · intro u h1 h2 h3
    simp [links.call, h1, h2, h3]

/-- Witness for `call_unknown_scheme_error`: a `tcp` URI gets no error,
a `quic` URI gets the unknown-scheme error naming `quic`. -/
theorem call_unknown_scheme_error_witness :
    (links.call ⟨"tcp", "host:1", "", none, [], []⟩).err = none ∧
    (links.call ⟨"quic", "host:1", "", none, [], []⟩).err =
      some ("unknown call scheme: " ++ "quic") :=
  ⟨(call_unknown_scheme_error.1 ⟨"tcp", "host:1", "", none, [], []⟩).mpr (Or.inl rfl),
   call_unknown_scheme_error.2 ⟨"quic", "host:1", "", none, [], []⟩
     (by decide) (by decide) (by decide)⟩

/-- **C10.** If `call` is given at least one `ed25519` query parameter but
none of them decodes as hex, the pinned-identity set it builds is
allocated but empty (`some []`), and every handshake run with those
options that reaches the pinned check fails with the pinned-key mismatch
error, for every remote identity — the check of line 197 triggers on any
non-nil set, even an empty one. -/
theorem bad_hex_pinned_params_reject_all :
    ∀ pubkeys : List String,
      pubkeys ≠ [] →
      (∀ p ∈ pubkeys, decodeHexBytes p.toList = none) →
      parsePinnedKeys pubkeys = some [] ∧
      (∀ (selfId mv : Nat) (incoming force : Bool) (info0 : linkInfo)
         (env : HandshakeEnv) (m : version_metadata),
         env.sendOutcome = some (metaLen, none) →
         env.recvOutcome = some (metaLen, none) →
         env.decoded = some m →
         env.checkOk = true →
         (link.handler selfId ⟨parsePinnedKeys pubkeys, mv⟩ incoming force info0 env).retErr =
           some "failed to connect: host sent ed25519 key that does not match pinned keys" ∧
         (link.handler selfId ⟨parsePinnedKeys pubkeys, mv⟩ incoming force info0 env).registered =
           false) := by
  intro pubkeys hne hbad
  have hempty : parsePinnedKeys pubkeys = some [] := by
    unfold parsePinnedKeys
    rw [if_neg hne]
    congr 1
    rw [List.filterMap_eq_nil_iff]
    intro p hp
    rw [hbad p hp]
    rfl
  refine ⟨hempty, ?_⟩
  intro selfId mv incoming force info0 env m hsend hrecv hdec hchk
  have hpin : pinnedReject ⟨parsePinnedKeys pubkeys, mv⟩ (padKey m.key) = true := by
    simp [pinnedReject, hempty]
  simp [link.handler, failRes, hsend, hrecv, hdec, hchk, hpin, metaLen]

/-- Witness for `bad_hex_pinned_params_reject_all`: the single parameter
`"zz"` (not hex) yields `some []`, and a concrete handshake with remote
key `[9]` fails with the pinned-key mismatch error. -/
theorem bad_hex_pinned_params_reject_all_witness :
    ("zz" :: []) ≠ ([] : List String) ∧
    parsePinnedKeys ["zz"] = some [] ∧
    (link.handler 0 ⟨parsePinnedKeys ["zz"], 3⟩ true false ⟨[], "tcp", "lo", "re"⟩
       ⟨some (35, none), some (35, none), some ⟨1, 0, [9], 7⟩, true, [], [], none⟩).retErr =
      some "failed to connect: host sent ed25519 key that does not match pinned keys" :=
  ⟨by decide,
   (bad_hex_pinned_params_reject_all ["zz"] (by decide) (by decide)).1,
   ((bad_hex_pinned_params_reject_all ["zz"] (by decide) (by decide)).2 0 3 true false
      ⟨[], "tcp", "lo", "re"⟩
      ⟨some (35, none), some (35, none), some ⟨1, 0, [9], 7⟩, true, [], [], none⟩
      ⟨1, 0, [9], 7⟩ rfl rfl rfl rfl).1⟩
